import Mathlib

/-!
Verification of the PDF book reader's view-mode / page-turn core.

This file gives a shallow embedding, in Lean, of the state and the event
handlers of the reader (src/App.tsx, src/components/Book.tsx,
src/components/Page.tsx, the bookmark hook), and proves or refutes the
frozen claims about them.

Conventions of the embedding:
* Page numbers and page counts are `ℤ` (JavaScript numbers used as integers).
* Zoom factors, widths and aspect ratios are `ℚ`; decimal literals of the
  source (`0.2`, `0.95`, `1.414`) are written as the same decimal literals.
* React component state is collected in explicit state records; each event
  handler becomes a function on the record.  A `useEffect` whose dependency
  list is `[x]` is folded into every transition that changes `x` (React runs
  the effect exactly when the dependency changed between renders).
* Mounting/unmounting of a component resets its `useState` cells to their
  initial values; this is folded into the transitions that switch the
  mounted component.
-/

namespace Reader

/-- `ViewMode` from src/App.tsx: `'book' | 'scroll'`. -/
inductive ViewMode
  | book
  | scroll
deriving DecidableEq, Repr

/-- `Orientation` from src/hooks/useOrientation.ts: `'landscape' | 'portrait'`,
derived from `window.innerWidth > window.innerHeight`. -/
inductive Orientation
  | landscape
  | portrait
deriving DecidableEq, Repr

/-- Direction of a page turn, from src/components/Book.tsx: `'next' | 'prev'`. -/
inductive TurnDirection
  | next
  | prev
deriving DecidableEq, Repr

/-- The mutable state of the reader relevant to navigation:
`currentPage` and `viewMode` live in `App`, `orientation` is observed from the
host window, and `isTurning`, `direction`, `zoom` are the `BookView` state
cells of src/components/Book.tsx. -/
structure ReaderState where
  numPages : ℤ
  currentPage : ℤ
  viewMode : ViewMode
  orientation : Orientation
  isTurning : Bool
  direction : Option TurnDirection
  zoom : ℚ
deriving DecidableEq, Repr

/-- `handleGoToPage` from src/App.tsx (lines 77-90):
clamp to `[1, numPages]`; in book mode on a non-portrait window, snap an even
target to the odd page on its left. -/
def handleGoToPage (numPages : ℤ) (vm : ViewMode) (o : Orientation) (pageNumber : ℤ) : ℤ :=
  let newPage := max 1 (min pageNumber numPages)
  if vm = ViewMode.book ∧ o ≠ Orientation.portrait then
    -- `const isLandscape = window.innerWidth > window.innerHeight` reads the
    -- same comparison that `useOrientation` derives `o` from.
    let targetPage := if o = Orientation.landscape ∧ newPage % 2 = 0 then newPage - 1 else newPage
    if targetPage > 0 then targetPage else 1
  else
    newPage

/-- `pageIncrement` from src/components/Book.tsx (line 201):
`isLandscape ? 2 : 1`. -/
def pageIncrement (o : Orientation) : ℤ :=
  if o = Orientation.landscape then 2 else 1

/-- Events the reader reacts to.  `goToPage` is the jump input / bookmark /
chapter navigation, `requestTurn` the turn buttons, `transitionEnd` the
flipper's animation-end, `scrollIntersect` an intersection-observer callback
for the container of page `p`, `setOrientation` a window resize crossing the
aspect threshold, `selectViewMode` the view-mode switcher, and the zoom
buttons. -/
inductive Event
  | goToPage (n : ℤ)
  | requestTurn (d : TurnDirection)
  | transitionEnd
  | scrollIntersect (p : ℤ)
  | setOrientation (o : Orientation)
  | selectViewMode (m : ViewMode)
  | zoomIn
  | zoomOut
deriving DecidableEq, Repr

/-- Effect of `handleGoToPage` on the state, including the `BookView` effect
on `[currentPage]` (lines 230-234) that resets the zoom whenever the current
page changed while `BookView` is mounted (book mode, landscape). -/
def applyGoToPage (s : ReaderState) (n : ℤ) : ReaderState :=
  let newCur := handleGoToPage s.numPages s.viewMode s.orientation n
  { s with
    currentPage := newCur
    zoom := if s.viewMode = ViewMode.book ∧ s.orientation = Orientation.landscape ∧ newCur ≠ s.currentPage then 1 else s.zoom }

/-- `turnPage` from src/components/Book.tsx (lines 236-245).  It is only
reachable while `BookView` is mounted (book mode, landscape). -/
def applyRequestTurn (s : ReaderState) (d : TurnDirection) : ReaderState :=
  if s.viewMode = ViewMode.book ∧ s.orientation = Orientation.landscape then
    if s.isTurning then s
    else
      let canTurnNext := s.currentPage + pageIncrement s.orientation - 1 < s.numPages
      let canTurnPrev := 1 < s.currentPage
      if (d = TurnDirection.next ∧ ¬canTurnNext) ∨ (d = TurnDirection.prev ∧ ¬canTurnPrev) then s
      else { s with isTurning := true, direction := some d }
  else s

/-- `onTransitionEnd` from src/components/Book.tsx (lines 247-255), together
with the zoom-reset effect on `[currentPage]`.  The handler is attached to
the flipper, which is rendered only while `isTurning && direction` in a
mounted `BookView`, so the event can only fire there. -/
def applyTransitionEnd (s : ReaderState) : ReaderState :=
  if s.viewMode = ViewMode.book ∧ s.orientation = Orientation.landscape ∧ s.isTurning = true ∧ s.direction ≠ none then
    let newCur :=
      match s.direction with
      | some TurnDirection.next => s.currentPage + pageIncrement s.orientation
      | some TurnDirection.prev => max (s.currentPage - pageIncrement s.orientation) 1
      | none => s.currentPage
    { s with
      currentPage := newCur
      zoom := if newCur ≠ s.currentPage then 1 else s.zoom
      isTurning := false
      direction := none }
  else s

/-- The intersection-observer callback of src/components/Book.tsx
(lines 59-83): active only in scroll mode, it reads `data-page-num` from an
intersecting page container (containers exist for pages `1..numPages`) and
sets the current page. -/
def applyScrollIntersect (s : ReaderState) (p : ℤ) : ReaderState :=
  if s.viewMode = ViewMode.scroll ∧ 1 ≤ p ∧ p ≤ s.numPages then
    { s with currentPage := p }
  else s

/-- An orientation change, including the force-scroll effect of src/App.tsx
(lines 40-44): entering portrait while in book mode coerces the view mode to
scroll.  Leaving book mode unmounts `BookView`, destroying its `useState`
cells (`isTurning`, `direction`, `zoom`). -/
def applySetOrientation (s : ReaderState) (o : Orientation) : ReaderState :=
  let s1 := { s with orientation := o }
  if o = Orientation.portrait ∧ s.viewMode = ViewMode.book then
    { s1 with viewMode := ViewMode.scroll, isTurning := false, direction := none, zoom := 1 }
  else s1

/-- The `ViewModeSwitcher` of src/components/Book.tsx (lines 413-436): the
book button carries `disabled={isPortrait}`, so selecting book in portrait
does nothing.  Switching the mode unmounts/remounts `BookView`, resetting its
state cells to their `useState` initial values. -/
def applySelectViewMode (s : ReaderState) (m : ViewMode) : ReaderState :=
  if m = ViewMode.book ∧ s.orientation = Orientation.portrait then s
  else if m = s.viewMode then s
  else { s with viewMode := m, isTurning := false, direction := none, zoom := 1 }

/-- `handleZoomIn` from src/components/Book.tsx (line 257):
`setZoom(z => Math.min(z + 0.2, 3))`, reachable only in a mounted `BookView`. -/
def applyZoomIn (s : ReaderState) : ReaderState :=
  if s.viewMode = ViewMode.book ∧ s.orientation = Orientation.landscape then
    { s with zoom := min (s.zoom + 0.2) 3 }
  else s

/-- `handleZoomOut` from src/components/Book.tsx (line 258):
`setZoom(z => Math.max(z - 0.2, 0.5))`. -/
def applyZoomOut (s : ReaderState) : ReaderState :=
  if s.viewMode = ViewMode.book ∧ s.orientation = Orientation.landscape then
    { s with zoom := max (s.zoom - 0.2) 0.5 }
  else s

/-- One step of the reader. -/
def step (s : ReaderState) : Event → ReaderState
  | Event.goToPage n => applyGoToPage s n
  | Event.requestTurn d => applyRequestTurn s d
  | Event.transitionEnd => applyTransitionEnd s
  | Event.scrollIntersect p => applyScrollIntersect s p
  | Event.setOrientation o => applySetOrientation s o
  | Event.selectViewMode m => applySelectViewMode s m
  | Event.zoomIn => applyZoomIn s
  | Event.zoomOut => applyZoomOut s

/-- State right after a document with `numPages` pages is loaded while the
window has orientation `o`: `currentPage` starts at 1 (src/App.tsx line 52),
`viewMode` starts as `'book'` (line 27) but the force-scroll effect
(lines 40-44) runs on mount and coerces it in portrait; `BookView` starts
idle with zoom 1. -/
def initState (numPages : ℤ) (o : Orientation) : ReaderState :=
  { numPages := numPages
    currentPage := 1
    viewMode := if o = Orientation.portrait then ViewMode.scroll else ViewMode.book
    orientation := o
    isTurning := false
    direction := none
    zoom := 1 }

/-- Run a list of events. -/
def run (s : ReaderState) (es : List Event) : ReaderState :=
  es.foldl step s

/-- Event feasibility used by the amended bounds invariant: a `goToPage` that
fires while a turn is in flight is the one interleaving the code leaves open
(the jump form is not disabled during a turn). -/
def eventOk (s : ReaderState) : Event → Bool
  | Event.goToPage _ => !s.isTurning
  | _ => true

/-- A run in which every event is feasible at the state where it fires. -/
def okRun (s : ReaderState) : List Event → Bool
  | [] => true
  | e :: es => eventOk s e && okRun (step s e) es

/-- The view-mode invariant: in book (spread) mode the window is landscape. -/
def SpreadOnlyLandscape (s : ReaderState) : Prop :=
  s.viewMode = ViewMode.book → s.orientation = Orientation.landscape

/-- One render handle issued to the collaborator (a pdf.js `RenderTask`).
`cancelled` records whether `cancel()` has been called on it, `completed`
whether its promise has settled. -/
structure RenderTask where
  width : ℚ
  cancelled : Bool
  completed : Bool
deriving DecidableEq, Repr

/-- The state of one `Page` component entry (src/components/Page.tsx,
identity-checked variant, lines 125-223): the tasks issued so far (indexed
by position), `renderTaskRef.current` as the index of the task it holds,
the surface shown on the canvas (the width of the last successful paint,
`none` when blank/cleared), and the `error` state cell. -/
structure PageEntry where
  tasks : List RenderTask
  tracked : Option ℕ
  surface : Option ℚ
  errored : Bool
deriving DecidableEq, Repr

/-- A freshly mounted `Page`: no tasks, empty ref, blank canvas, no error. -/
def initEntry : PageEntry :=
  { tasks := [], tracked := none, surface := none, errored := false }

/-- Mark task `i` as cancelled (its `cancel()` was invoked). -/
def markCancelled : List RenderTask → ℕ → List RenderTask
  | [], _ => []
  | t :: ts, 0 => { t with cancelled := true } :: ts
  | t :: ts, Nat.succ i => t :: markCancelled ts i

/-- Mark task `i` as completed (its promise settled). -/
def markCompleted : List RenderTask → ℕ → List RenderTask
  | [], _ => []
  | t :: ts, 0 => { t with completed := true } :: ts
  | t :: ts, Nat.succ i => t :: markCompleted ts i

/-- The cleanup closure of the `Page` effect (Page.tsx lines 139-145): runs
before the effect re-runs or on unmount; cancels the tracked task
unconditionally and nulls the ref. -/
def effectCleanup (s : PageEntry) : PageEntry :=
  match s.tracked with
  | some i => { s with tasks := markCancelled s.tasks i, tracked := none }
  | none => s

/-- The body of the `Page` effect for inputs `(pageNum, width)` (Page.tsx
lines 131-160 and 186-188): `setError(false)` runs first; the guard
`pageNum <= 0 || pageNum > numPages || !width` clears the canvas and stops
(in JavaScript `!width` is true exactly for width 0, and for NaN, not for
negative numbers); otherwise a new render task is issued and tracked. -/
def effectBody (numPages pageNum : ℤ) (width : ℚ) (s : PageEntry) : PageEntry :=
  if pageNum ≤ 0 ∨ pageNum > numPages ∨ width = 0 then
    { s with surface := none, errored := false }
  else
    { s with
      tasks := s.tasks ++ [{ width := width, cancelled := false, completed := false }]
      tracked := some s.tasks.length
      errored := false }

/-- A re-run of the `Page` effect when its dependencies `(pageNum, width)`
change: React runs the previous run's cleanup, then the new body. -/
def rerunEffect (numPages : ℤ) (s : PageEntry) (pageNum : ℤ) (width : ℚ) : PageEntry :=
  effectBody numPages pageNum width (effectCleanup s)

/-- Settlement of task `i`.  Per the collaborator contract a cancelled
render rejects with `RenderingCancelledException` and never resolves as a
success, while an uncancelled render resolves and paints the canvas at its
width.  The handlers (Page.tsx lines 190-211) treat the cancellation
rejection as expected (no error state), and clear `renderTaskRef` only when
it still holds this very task (`renderTaskRef.current === task`), so a late
settlement never clobbers the ref of a newer in-flight task. -/
def completeTask (s : PageEntry) (i : ℕ) : PageEntry :=
  match s.tasks[i]? with
  | none => s
  | some t =>
    if t.completed then s
    else if t.cancelled then
      { s with
        tasks := markCompleted s.tasks i
        tracked := if s.tracked = some i then none else s.tracked }
    else
      { s with
        tasks := markCompleted s.tasks i
        tracked := if s.tracked = some i then none else s.tracked
        surface := some t.width }

/-- Run a list of task settlements. -/
def runCompletes (s : PageEntry) (cs : List ℕ) : PageEntry :=
  cs.foldl completeTask s

/-- Invariant used for the supersession race: every not-cancelled task has
width `w` and the surface, if painted, shows `w`. -/
def OnlyWidth (w : ℚ) (s : PageEntry) : Prop :=
  (∀ (i : ℕ) (t : RenderTask), s.tasks[i]? = some t → t.cancelled = false → t.width = w) ∧
  (s.surface = none ∨ s.surface = some w)

/-- The page containers rendered by `ScrollView` (Book.tsx lines 148-160):
`Array.from({ length: numPages }, (_, i) => i + 1)` — one container with a
`Page` surface for every page of the document, from the moment the view
mounts. -/
def scrollRenderedPages (numPages : ℕ) : List ℕ :=
  (List.range numPages).map (fun i => i + 1)

/-- `updateSize` from src/components/Book.tsx (lines 213-225): the container
width is `min(innerWidth * 0.95, innerHeight * 0.95 * bookAspect)` where
`bookAspect = (isLandscape ? 2 : 1) / pageAspect` (the source calls the
aspect state `pageAspectRatio`, height over width, default 1.414). -/
def updateSize (innerWidth innerHeight pageAspect : ℚ) (isLandscape : Bool) : ℚ :=
  let viewportHeight := innerHeight * 0.95
  let viewportWidth := innerWidth * 0.95
  let bookAspect := (if isLandscape then (2 : ℚ) else 1) / pageAspect
  min viewportWidth (viewportHeight * bookAspect)

/-- Modelled from the spec's words, for comparison with `updateSize`: the
claimed Spread geometry, `min(viewportWidth × 0.9,
availableHeight × 2 / pageAspectRatio)` with `availableHeight =
viewportHeight − verticalPadding − chromeHeight`. -/
def specSpreadContainerWidth (viewportWidth viewportHeight pageAspect verticalPadding chromeHeight : ℚ) : ℚ :=
  let availableHeight := viewportHeight - verticalPadding - chromeHeight
  min (viewportWidth * 0.9) (availableHeight * 2 / pageAspect)

/-- A bookmark, from src/types.ts: `{ page: number; name: string }`. -/
structure Bookmark where
  page : ℤ
  name : String
deriving DecidableEq, Repr

/-- `addBookmark` from the `useBookmarks` hook (the functional update on
`prevBookmarks`): refuse a duplicate page, otherwise append and sort by
page ascending (`[...prev, newBookmark].sort((a, b) => a.page - b.page)`,
a stable sort with an ascending comparator). -/
def addBookmark (prevBookmarks : List Bookmark) (page : ℤ) (name : String) : List Bookmark :=
  if prevBookmarks.any (fun b => b.page == page) then prevBookmarks
  else
    (prevBookmarks ++ [({ page := page, name := name } : Bookmark)]).mergeSort
      (fun a b => a.page ≤ b.page)

/-- Inductive invariant for the current-page bounds: the page is in bounds,
a turn can only be in flight while `BookView` is mounted, and an in-flight
`next` turn still has room to land (its guard held when it was requested and
no jump has moved the page since). -/
def Inv (s : ReaderState) : Prop :=
  1 ≤ s.numPages ∧ 1 ≤ s.currentPage ∧ s.currentPage ≤ s.numPages ∧
  (s.isTurning = true → s.viewMode = ViewMode.book ∧ s.orientation = Orientation.landscape) ∧
  (s.isTurning = true → s.direction = some TurnDirection.next → s.currentPage + 2 ≤ s.numPages)

theorem handleGoToPage_bounds (N : ℤ) (vm : ViewMode) (o : Orientation) (n : ℤ)
    (hN : 1 ≤ N) :
    1 ≤ handleGoToPage N vm o n ∧ handleGoToPage N vm o n ≤ N := by
  simp only [handleGoToPage]
  split_ifs <;> omega

theorem numPages_step (s : ReaderState) (e : Event) : (step s e).numPages = s.numPages := by
  cases e <;>
    simp only [step, applyGoToPage, applyRequestTurn, applyTransitionEnd, applyScrollIntersect,
      applySetOrientation, applySelectViewMode, applyZoomIn, applyZoomOut] <;>
    split_ifs <;> rfl

theorem numPages_run (s : ReaderState) (es : List Event) : (run s es).numPages = s.numPages := by
  induction es generalizing s with
  | nil => rfl
  | cons e es ih => simpa [run, List.foldl] using (ih (step s e)).trans (numPages_step s e)

theorem inv_step (s : ReaderState) (e : Event) (hInv : Inv s) (hOk : eventOk s e = true) :
    Inv (step s e) := by
  obtain ⟨hN, hlo, hhi, hmount, hroom⟩ := hInv
  cases e with
  | goToPage n =>
    simp only [eventOk, Bool.not_eq_true'] at hOk
    have hb := handleGoToPage_bounds s.numPages s.viewMode s.orientation n hN
    exact ⟨hN, hb.1, hb.2, fun ht => absurd ht (by simp [step, applyGoToPage, hOk]),
      fun ht => absurd ht (by simp [step, applyGoToPage, hOk])⟩
  | requestTurn d =>
    simp only [step, applyRequestTurn]
    split_ifs with h1 h2 h3 <;>
      try exact ⟨hN, hlo, hhi, hmount, hroom⟩
    refine ⟨hN, hlo, hhi, fun _ => h1, fun _ hd => ?_⟩
    simp only [Option.some.injEq] at hd
    have hcan : s.currentPage + pageIncrement s.orientation - 1 < s.numPages := by
      by_contra hc; exact h3 (Or.inl ⟨hd, hc⟩)
    have hinc : pageIncrement s.orientation = 2 := by
      simp [pageIncrement, h1.2]
    show s.currentPage + 2 ≤ s.numPages
    omega
  | transitionEnd =>
    by_cases h1 : s.viewMode = ViewMode.book ∧ s.orientation = Orientation.landscape ∧
      s.isTurning = true ∧ s.direction ≠ none
    · obtain ⟨hvm, ho, ht, hdir⟩ := h1
      have hinc : pageIncrement s.orientation = 2 := by simp [pageIncrement, ho]
      have h1' : s.viewMode = ViewMode.book ∧ s.orientation = Orientation.landscape ∧
          s.isTurning = true ∧ s.direction ≠ none := ⟨hvm, ho, ht, hdir⟩
      rcases hd : s.direction with _ | d
      · exact absurd hd hdir
      · cases d with
        | next =>
          have hr := hroom ht hd
          simp only [step]
          unfold applyTransitionEnd
          rw [if_pos h1']
          simp only [hd, hinc]
          refine ⟨hN, ?_, ?_, by simp, by simp⟩
          · show 1 ≤ s.currentPage + 2
            omega
          · show s.currentPage + 2 ≤ s.numPages
            omega
        | prev =>
          simp only [step]
          unfold applyTransitionEnd
          rw [if_pos h1']
          simp only [hd, hinc]
          refine ⟨hN, ?_, ?_, by simp, by simp⟩
          · show 1 ≤ max (s.currentPage - 2) 1
            omega
          · show max (s.currentPage - 2) 1 ≤ s.numPages
            omega
    · simp only [step]
      unfold applyTransitionEnd
      rw [if_neg h1]
      exact ⟨hN, hlo, hhi, hmount, hroom⟩
  | scrollIntersect p =>
    simp only [step, applyScrollIntersect]
    split_ifs with h1 <;>
      try exact ⟨hN, hlo, hhi, hmount, hroom⟩
    refine ⟨hN, h1.2.1, h1.2.2, fun ht => hmount ht, fun ht _ => ?_⟩
    have hb := (hmount ht).1
    rw [h1.1] at hb
    exact absurd hb (by simp)
  | setOrientation o =>
    simp only [step, applySetOrientation]
    split_ifs with h1
    · exact ⟨hN, hlo, hhi, by simp, by simp⟩
    · refine ⟨hN, hlo, hhi, fun ht => ⟨(hmount ht).1, ?_⟩, fun ht hd => hroom ht hd⟩
      cases o with
      | landscape => rfl
      | portrait => exact absurd ⟨rfl, (hmount ht).1⟩ h1
  | selectViewMode m =>
    simp only [step, applySelectViewMode]
    split_ifs with h1 h2 <;>
      first
        | exact ⟨hN, hlo, hhi, hmount, hroom⟩
        | exact ⟨hN, hlo, hhi, by simp, by simp⟩
  | zoomIn =>
    simp only [step, applyZoomIn]
    split_ifs <;> exact ⟨hN, hlo, hhi, hmount, hroom⟩
  | zoomOut =>
    simp only [step, applyZoomOut]
    split_ifs <;> exact ⟨hN, hlo, hhi, hmount, hroom⟩

theorem inv_okRun (es : List Event) :
    ∀ s : ReaderState, Inv s → okRun s es = true → Inv (run s es) := by
  induction es with
  | nil => intro s h _; exact h
  | cons e es ih =>
    intro s h hok
    simp only [okRun, Bool.and_eq_true] at hok
    exact ih (step s e) (inv_step s e h hok.1) hok.2

theorem inv_init (N : ℤ) (o : Orientation) (hN : 1 ≤ N) : Inv (initState N o) := by
  refine ⟨hN, by simp [initState], by simp [initState]; omega, ?_, ?_⟩ <;>
    simp [initState]

/-- C1 (counterexample): the bounds invariant fails as claimed.  On a
10-page document in landscape book mode, requesting a next turn from page 1,
jumping to page 9 while the turn is still in flight (the jump form is not
disabled during a turn), and then letting the turn commit drives the current
page to 11, above the page count: the next-turn commit in `onTransitionEnd`
adds the increment without clamping. -/
theorem currentPage_bound_violation :
    (run (initState 10 Orientation.landscape)
        [Event.requestTurn TurnDirection.next, Event.goToPage 9, Event.transitionEnd]).currentPage = 11 ∧
    ¬((run (initState 10 Orientation.landscape)
        [Event.requestTurn TurnDirection.next, Event.goToPage 9, Event.transitionEnd]).currentPage ≤
      (run (initState 10 Orientation.landscape)
        [Event.requestTurn TurnDirection.next, Event.goToPage 9, Event.transitionEnd]).numPages) := by
  constructor <;> decide

/-- C1 (amended): for every loaded document (`1 ≤ N`) and every sequence of
turn commits, jumps and scroll-intersection updates in which no `goToPage`
jump fires while a turn is in flight, the current page satisfies
`1 ≤ currentPage ≤ pageCount` at every observable point (every run prefix is
itself such a run, so this covers all intermediate states, including the
moment a commit fires). -/
theorem currentPage_within_bounds (N : ℤ) (o : Orientation) (es : List Event)
    (hN : 1 ≤ N) (h : okRun (initState N o) es = true) :
    1 ≤ (run (initState N o) es).currentPage ∧
      (run (initState N o) es).currentPage ≤ N := by
  have hInv := inv_okRun es (initState N o) (inv_init N o hN) h
  have hnp : (run (initState N o) es).numPages = N := numPages_run (initState N o) es
  refine ⟨hInv.2.1, ?_⟩
  have h2 := hInv.2.2.1
  rwa [hnp] at h2

/-- Witness for C1 (amended) at a concrete run: a full turn on a 10-page
landscape document. -/
theorem currentPage_within_bounds_witness :
    1 ≤ (run (initState 10 Orientation.landscape)
        [Event.requestTurn TurnDirection.next, Event.transitionEnd]).currentPage ∧
    (run (initState 10 Orientation.landscape)
        [Event.requestTurn TurnDirection.next, Event.transitionEnd]).currentPage ≤ 10 :=
  currentPage_within_bounds 10 Orientation.landscape
    [Event.requestTurn TurnDirection.next, Event.transitionEnd] (by decide) (by decide)

/-- C2: `goToPage` clamps its argument to `[1, pageCount]`: outside book
mode with a landscape window (scroll mode, or a portrait window) the result
is exactly `clamp(n, 1, N)`; in book mode on a landscape window the clamped
value is additionally snapped to the odd page on its left, so an in-range
even `n` yields `n - 1` and an in-range odd `n` yields `n` (and out-of-range
values are clamped before snapping). -/
theorem goToPage_clamps (N n : ℤ) :
    (∀ vm o, ¬(vm = ViewMode.book ∧ o ≠ Orientation.portrait) →
      handleGoToPage N vm o n = max 1 (min n N)) ∧
    (handleGoToPage N ViewMode.book Orientation.landscape n =
      (if (max 1 (min n N)) % 2 = 0 then max 1 (min n N) - 1 else max 1 (min n N))) ∧
    (1 ≤ n → n ≤ N → n % 2 = 0 →
      handleGoToPage N ViewMode.book Orientation.landscape n = n - 1) ∧
    (1 ≤ n → n ≤ N → n % 2 ≠ 0 →
      handleGoToPage N ViewMode.book Orientation.landscape n = n) := by
  refine ⟨?_, ?_, ?_, ?_⟩
  · intro vm o h
    simp only [handleGoToPage, if_neg h]
  · simp only [handleGoToPage]
    split_ifs with h1 h2 h3 h4 h5 <;> simp_all <;> omega
  · intro h1 h2 h3
    simp only [handleGoToPage]
    split_ifs <;> simp_all <;> omega
  · intro h1 h2 h3
    simp only [handleGoToPage]
    split_ifs <;> simp_all <;> omega

/-- Witness for C2 on a 10-page document: jumping to 4 in landscape book
mode lands on 3, jumping to 7 lands on 7, and in scroll mode 999 clamps
to 10. -/
theorem goToPage_clamps_witness :
    handleGoToPage 10 ViewMode.book Orientation.landscape 4 = 3 ∧
    handleGoToPage 10 ViewMode.book Orientation.landscape 7 = 7 ∧
    handleGoToPage 10 ViewMode.scroll Orientation.landscape 999 = max 1 (min 999 10) :=
  ⟨(goToPage_clamps 10 4).2.2.1 (by decide) (by decide) (by decide),
   (goToPage_clamps 10 7).2.2.2 (by decide) (by decide) (by decide),
   (goToPage_clamps 10 999).1 ViewMode.scroll Orientation.landscape (by decide)⟩

/-- C3: `turnPage` is a silent no-op unless the machine is idle and the
bounds are valid — while a turn is in flight it changes nothing, a `next`
with `currentPage + increment - 1 ≥ pageCount` changes nothing, a `prev`
with `currentPage ≤ 1` changes nothing — it never moves the current page
itself (the page moves only at commit), and the increment is 2 in the
landscape spread layout. -/
theorem requestTurn_noop_guards (s : ReaderState) (d : TurnDirection) :
    (s.isTurning = true → step s (Event.requestTurn d) = s) ∧
    (d = TurnDirection.next →
      ¬(s.currentPage + pageIncrement s.orientation - 1 < s.numPages) →
      step s (Event.requestTurn d) = s) ∧
    (d = TurnDirection.prev → ¬(1 < s.currentPage) → step s (Event.requestTurn d) = s) ∧
    (step s (Event.requestTurn d)).currentPage = s.currentPage ∧
    pageIncrement Orientation.landscape = 2 := by
  refine ⟨?_, ?_, ?_, ?_, by simp [pageIncrement]⟩
  · intro ht
    simp only [step, applyRequestTurn, ht]
    split_ifs <;> rfl
  · intro hd hb
    simp only [step, applyRequestTurn]
    split_ifs with h1 h2 h3
    · rfl
    · rfl
    · exact (h3 (Or.inl ⟨hd, hb⟩)).elim
    · rfl
  · intro hd hb
    simp only [step, applyRequestTurn]
    split_ifs with h1 h2 h3
    · rfl
    · rfl
    · exact (h3 (Or.inr ⟨hd, hb⟩)).elim
    · rfl
  · simp only [step, applyRequestTurn]
    split_ifs <;> rfl

/-- Witness for C3: on a 10-page landscape document at page 1 with a turn in
flight, a second `requestTurn` leaves the state unchanged. -/
theorem requestTurn_noop_guards_witness :
    step (run (initState 10 Orientation.landscape) [Event.requestTurn TurnDirection.next])
        (Event.requestTurn TurnDirection.next) =
      run (initState 10 Orientation.landscape) [Event.requestTurn TurnDirection.next] :=
  (requestTurn_noop_guards
    (run (initState 10 Orientation.landscape) [Event.requestTurn TurnDirection.next])
    TurnDirection.next).1 (by decide)

/-- C4 (counterexample): a genuine completion does not always reset the zoom
to 1.0.  On a 10-page landscape document: jump to page 3, request a prev
turn, jump to page 1 while the turn is in flight, zoom in, and let the turn
complete: the commit `max(1 - 2, 1) = 1` leaves the current page unchanged,
so the zoom-reset effect (keyed on `[currentPage]`) does not fire, and the
machine returns to idle with zoom 1.2. -/
theorem transitionEnd_zoom_not_reset :
    (run (initState 10 Orientation.landscape)
        [Event.goToPage 3, Event.requestTurn TurnDirection.prev, Event.goToPage 1,
         Event.zoomIn]).isTurning = true ∧
    (run (initState 10 Orientation.landscape)
        [Event.goToPage 3, Event.requestTurn TurnDirection.prev, Event.goToPage 1,
         Event.zoomIn]).direction = some TurnDirection.prev ∧
    (step (run (initState 10 Orientation.landscape)
        [Event.goToPage 3, Event.requestTurn TurnDirection.prev, Event.goToPage 1,
         Event.zoomIn]) Event.transitionEnd).isTurning = false ∧
    (step (run (initState 10 Orientation.landscape)
        [Event.goToPage 3, Event.requestTurn TurnDirection.prev, Event.goToPage 1,
         Event.zoomIn]) Event.transitionEnd).zoom ≠ 1 := by
  refine ⟨by decide, by decide, by decide, ?_⟩
  have h : (step (run (initState 10 Orientation.landscape)
      [Event.goToPage 3, Event.requestTurn TurnDirection.prev, Event.goToPage 1,
       Event.zoomIn]) Event.transitionEnd).zoom = min ((1:ℚ) + 0.2) 3 := rfl
  rw [h, min_def]
  norm_num

/-- C4 (amended): an animation-end while a turn is in flight commits the
turn — the current page becomes `currentPage + 2` for `next` and
`max(currentPage - 2, 1)` for `prev`, the machine returns to idle — and the
zoom is reset to 1.0 whenever the commit changed the current page (which is
always, unless a jump during a prev-turn already moved the page to 1).  The
claimed scenario holds: on a 10-page landscape spread at page 1,
`requestTurn(next)` followed by animation-end yields page 3, zoom 1.0,
idle. -/
theorem transitionEnd_commits (s : ReaderState) (d : TurnDirection)
    (hvm : s.viewMode = ViewMode.book) (ho : s.orientation = Orientation.landscape)
    (ht : s.isTurning = true) (hd : s.direction = some d) :
    (step s Event.transitionEnd).currentPage =
      (if d = TurnDirection.next then s.currentPage + 2 else max (s.currentPage - 2) 1) ∧
    (step s Event.transitionEnd).isTurning = false ∧
    (step s Event.transitionEnd).direction = none ∧
    ((step s Event.transitionEnd).currentPage ≠ s.currentPage →
      (step s Event.transitionEnd).zoom = 1) ∧
    (run (initState 10 Orientation.landscape)
        [Event.requestTurn TurnDirection.next, Event.transitionEnd]).currentPage = 3 ∧
    (run (initState 10 Orientation.landscape)
        [Event.requestTurn TurnDirection.next, Event.transitionEnd]).zoom = 1 ∧
    (run (initState 10 Orientation.landscape)
        [Event.requestTurn TurnDirection.next, Event.transitionEnd]).isTurning = false := by
  have h1 : s.viewMode = ViewMode.book ∧ s.orientation = Orientation.landscape ∧
      s.isTurning = true ∧ s.direction ≠ none := ⟨hvm, ho, ht, by simp [hd]⟩
  have hinc : pageIncrement s.orientation = 2 := by simp [pageIncrement, ho]
  cases d with
  | next =>
    simp only [step]
    unfold applyTransitionEnd
    rw [if_pos h1]
    simp only [hd, hinc]
    refine ⟨by simp, trivial, trivial, ?_, by decide, by decide, by decide⟩
    intro hne
    show (if s.currentPage + 2 ≠ s.currentPage then (1:ℚ) else s.zoom) = 1
    rw [if_pos (by omega)]
  | prev =>
    simp only [step]
    unfold applyTransitionEnd
    rw [if_pos h1]
    simp only [hd, hinc]
    refine ⟨by simp, trivial, trivial, ?_, by decide, by decide, by decide⟩
    intro hne
    show (if max (s.currentPage - 2) 1 ≠ s.currentPage then (1:ℚ) else s.zoom) = 1
    rw [if_pos ?_]
    exact hne

/-- Witness for C4 (amended): the commit of a next turn requested at page 1
of the 10-page landscape scenario. -/
theorem transitionEnd_commits_witness :
    (step (run (initState 10 Orientation.landscape) [Event.requestTurn TurnDirection.next])
        Event.transitionEnd).currentPage =
      (if TurnDirection.next = TurnDirection.next then
        (run (initState 10 Orientation.landscape)
          [Event.requestTurn TurnDirection.next]).currentPage + 2
       else max ((run (initState 10 Orientation.landscape)
          [Event.requestTurn TurnDirection.next]).currentPage - 2) 1) :=
  (transitionEnd_commits
    (run (initState 10 Orientation.landscape) [Event.requestTurn TurnDirection.next])
    TurnDirection.next (by decide) (by decide) (by decide) (by decide)).1

theorem spreadOnlyLandscape_step (s : ReaderState) (e : Event)
    (h : SpreadOnlyLandscape s) : SpreadOnlyLandscape (step s e) := by
  cases e with
  | goToPage n => exact h
  | requestTurn d =>
    simp only [step, applyRequestTurn]
    split_ifs <;> exact h
  | transitionEnd =>
    simp only [step, applyTransitionEnd]
    split_ifs <;> exact h
  | scrollIntersect p =>
    simp only [step, applyScrollIntersect]
    split_ifs <;> exact h
  | setOrientation o =>
    simp only [step, applySetOrientation]
    split_ifs with h1
    · intro hb
      exact absurd hb (by simp)
    · intro hb
      have hvm : s.viewMode = ViewMode.book := hb
      cases o with
      | landscape => rfl
      | portrait => exact absurd ⟨rfl, hvm⟩ h1
  | selectViewMode m =>
    simp only [step, applySelectViewMode]
    split_ifs with h1 h2
    · exact h
    · exact h
    · intro hb
      have hm : m = ViewMode.book := hb
      rw [hm] at h1
      cases ho : s.orientation with
      | landscape => rfl
      | portrait => exact absurd ⟨rfl, ho⟩ h1
  | zoomIn =>
    simp only [step, applyZoomIn]
    split_ifs <;> exact h
  | zoomOut =>
    simp only [step, applyZoomOut]
    split_ifs <;> exact h

/-- C5: the view-mode policy.  (1) Entering portrait while the layout is the
spread forces the layout to scroll.  (2) Flipping back to landscape never
changes the layout (no automatic restore of the spread).  (3) Selecting the
spread while portrait is a complete no-op (the switcher button is disabled).
(4) Consequently, in every state reachable from a freshly loaded document,
spread layout implies landscape orientation. -/
theorem viewmode_policy :
    (∀ s : ReaderState, s.viewMode = ViewMode.book →
      (step s (Event.setOrientation Orientation.portrait)).viewMode = ViewMode.scroll) ∧
    (∀ s : ReaderState,
      (step s (Event.setOrientation Orientation.landscape)).viewMode = s.viewMode) ∧
    (∀ s : ReaderState, s.orientation = Orientation.portrait →
      step s (Event.selectViewMode ViewMode.book) = s) ∧
    (∀ (N : ℤ) (o : Orientation) (es : List Event),
      (run (initState N o) es).viewMode = ViewMode.book →
      (run (initState N o) es).orientation = Orientation.landscape) := by
  refine ⟨?_, ?_, ?_, ?_⟩
  · intro s hvm
    simp [step, applySetOrientation, hvm]
  · intro s
    cases hvm : s.viewMode <;> simp [step, applySetOrientation, hvm]
  · intro s ho
    simp [step, applySelectViewMode, ho]
  · intro N o es
    have hbase : SpreadOnlyLandscape (initState N o) := by
      intro hb
      simp only [initState] at hb
      cases o with
      | landscape => rfl
      | portrait => simp at hb
    have : ∀ (l : List Event) (s : ReaderState),
        SpreadOnlyLandscape s → SpreadOnlyLandscape (run s l) := by
      intro l
      induction l with
      | nil => intro s hs; exact hs
      | cons e l ih => intro s hs; exact ih (step s e) (spreadOnlyLandscape_step s e hs)
    exact this es (initState N o) hbase

/-- Witness for C5: rotating a landscape book-mode reader to portrait forces
scroll mode; selecting book mode while portrait does nothing; a run that
rotates to portrait and tries to re-select book mode stays in scroll. -/
theorem viewmode_policy_witness :
    (step (initState 10 Orientation.landscape)
        (Event.setOrientation Orientation.portrait)).viewMode = ViewMode.scroll ∧
    step (initState 10 Orientation.portrait) (Event.selectViewMode ViewMode.book) =
      initState 10 Orientation.portrait ∧
    (run (initState 10 Orientation.landscape)
        [Event.setOrientation Orientation.portrait,
         Event.selectViewMode ViewMode.book]).viewMode ≠ ViewMode.book :=
  ⟨viewmode_policy.1 (initState 10 Orientation.landscape) (by decide),
   viewmode_policy.2.2.1 (initState 10 Orientation.portrait) (by decide),
   fun hb => by
     have := viewmode_policy.2.2.2 10 Orientation.landscape
       [Event.setOrientation Orientation.portrait, Event.selectViewMode ViewMode.book] hb
     exact absurd this (by decide)⟩

theorem markCancelled_length (ts : List RenderTask) (i : ℕ) :
    (markCancelled ts i).length = ts.length := by
  induction ts generalizing i with
  | nil => rfl
  | cons hd tl ih => cases i <;> simp [markCancelled, ih]

theorem markCompleted_get (ts : List RenderTask) (i j : ℕ) (t' : RenderTask)
    (h : (markCompleted ts i)[j]? = some t') :
    ∃ t : RenderTask, ts[j]? = some t ∧ t'.width = t.width ∧ t'.cancelled = t.cancelled := by
  induction ts generalizing i j with
  | nil => simp [markCompleted] at h
  | cons hd tl ih =>
    cases i with
    | zero =>
      cases j with
      | zero =>
        simp only [markCompleted, List.getElem?_cons_zero, Option.some.injEq] at h
        subst h
        exact ⟨hd, by simp, rfl, rfl⟩
      | succ j =>
        simp only [markCompleted, List.getElem?_cons_succ] at h
        exact ⟨t', by simpa using h, rfl, rfl⟩
    | succ i =>
      cases j with
      | zero =>
        simp only [markCompleted, List.getElem?_cons_zero, Option.some.injEq] at h
        subst h
        exact ⟨hd, by simp, rfl, rfl⟩
      | succ j =>
        simp only [markCompleted, List.getElem?_cons_succ] at h
        simpa using ih i j h

theorem onlyWidth_completeTask (w : ℚ) (s : PageEntry) (i : ℕ)
    (h : OnlyWidth w s) : OnlyWidth w (completeTask s i) := by
  rcases hg : s.tasks[i]? with _ | t
  · simpa [completeTask, hg] using h
  · have htasks : ∀ (j : ℕ) (t' : RenderTask), (markCompleted s.tasks i)[j]? = some t' →
        t'.cancelled = false → t'.width = w := by
      intro j t' hj hc
      obtain ⟨t0, hj0, hw, hcan⟩ := markCompleted_get s.tasks i j t' hj
      rw [hw]
      exact h.1 j t0 hj0 (hcan ▸ hc)
    simp only [completeTask, hg]
    by_cases h1 : t.completed = true
    · rw [if_pos h1]
      exact h
    · rw [if_neg h1]
      by_cases h2 : t.cancelled = true
      · rw [if_pos h2]
        exact ⟨htasks, h.2⟩
      · rw [if_neg h2]
        refine ⟨htasks, Or.inr ?_⟩
        have hw : t.width = w := h.1 i t hg (by simpa using h2)
        simp [hw]

theorem onlyWidth_runCompletes (w : ℚ) (cs : List ℕ) :
    ∀ s : PageEntry, OnlyWidth w s → OnlyWidth w (runCompletes s cs) := by
  induction cs with
  | nil => intro s h; exact h
  | cons c cs ih =>
    intro s h
    exact ih (completeTask s c) (onlyWidth_completeTask w s c h)

theorem rerun_twice (N p : ℤ) (w1 w2 : ℚ) (hp0 : 0 < p) (hpN : p ≤ N)
    (h1 : w1 ≠ 0) (h2 : w2 ≠ 0) :
    rerunEffect N (rerunEffect N initEntry p w1) p w2 =
      { tasks := [{ width := w1, cancelled := true, completed := false },
                  { width := w2, cancelled := false, completed := false }],
        tracked := some 1, surface := none, errored := false } := by
  have hng1 : ¬(p ≤ 0 ∨ p > N ∨ w1 = 0) := by
    push_neg
    exact ⟨by omega, by omega, h1⟩
  have hng2 : ¬(p ≤ 0 ∨ p > N ∨ w2 = 0) := by
    push_neg
    exact ⟨by omega, by omega, h2⟩
  simp [rerunEffect, effectBody, effectCleanup, initEntry, hng1, hng2, markCancelled]

/-- C6: supersession of an in-flight render.  (1) Settling a task other than
the one the ref tracks leaves the ref untouched — the handler clears the ref
only on `renderTaskRef.current === task`, so a late completion of a
superseded task never clobbers the tracking of the newer in-flight one.
(2) A cancelled task's settlement is discarded: the surface and the error
state are unchanged — a cancelled render is never reported as a success.
(3) Requesting page `p` at width `w1` and then immediately at `w2 ≠ w1`
(both valid) cancels the `w1` task before issuing the `w2` task, so after
any sequence of settlements the single surface for `p` is blank or shows
`w2`, never `w1`. -/
theorem render_supersede_discard :
    (∀ (s : PageEntry) (i j : ℕ), s.tracked = some j → i ≠ j →
      (completeTask s i).tracked = some j) ∧
    (∀ (s : PageEntry) (i : ℕ) (t : RenderTask), s.tasks[i]? = some t → t.cancelled = true →
      (completeTask s i).surface = s.surface ∧ (completeTask s i).errored = s.errored) ∧
    (∀ (N p : ℤ) (w1 w2 : ℚ) (cs : List ℕ),
      0 < p → p ≤ N → w1 ≠ 0 → w2 ≠ 0 → w1 ≠ w2 →
      ((runCompletes (rerunEffect N (rerunEffect N initEntry p w1) p w2) cs).surface = none ∨
        (runCompletes (rerunEffect N (rerunEffect N initEntry p w1) p w2) cs).surface = some w2) ∧
      (runCompletes (rerunEffect N (rerunEffect N initEntry p w1) p w2) cs).surface ≠ some w1) := by
  refine ⟨?_, ?_, ?_⟩
  · intro s i j hs hij
    have hne : ¬(s.tracked = some i) := by
      rw [hs]
      simp
      omega
    rcases hg : s.tasks[i]? with _ | t
    · simp [completeTask, hg, hs]
    · simp only [completeTask, hg]
      by_cases h1 : t.completed = true
      · rw [if_pos h1]
        exact hs
      · rw [if_neg h1]
        by_cases h2 : t.cancelled = true
        · rw [if_pos h2]
          show (if s.tracked = some i then none else s.tracked) = some j
          rw [if_neg hne]
          exact hs
        · rw [if_neg h2]
          show (if s.tracked = some i then none else s.tracked) = some j
          rw [if_neg hne]
          exact hs
  · intro s i t hg hcan
    simp only [completeTask, hg]
    by_cases h1 : t.completed = true
    · rw [if_pos h1]
      exact ⟨rfl, rfl⟩
    · rw [if_neg h1, if_pos hcan]
      exact ⟨rfl, rfl⟩
  · intro N p w1 w2 cs hp0 hpN h1 h2 h12
    have hW : OnlyWidth w2 (rerunEffect N (rerunEffect N initEntry p w1) p w2) := by
      rw [rerun_twice N p w1 w2 hp0 hpN h1 h2]
      constructor
      · intro i t h hc
        match i with
        | 0 =>
          simp at h
          rw [← h] at hc
          simp at hc
        | 1 =>
          simp at h
          rw [← h]
        | Nat.succ (Nat.succ i) => simp at h
      · exact Or.inl rfl
    have hrun := onlyWidth_runCompletes w2 cs _ hW
    refine ⟨hrun.2, ?_⟩
    rcases hrun.2 with h | h <;> rw [h] <;> simp
    intro hc
    exact h12 hc.symm

/-- Witness for C6: page 1 of a 10-page document requested at width 100 and
then 200; after both tasks settle, the surface does not show width 100. -/
theorem render_supersede_discard_witness :
    (runCompletes (rerunEffect 10 (rerunEffect 10 initEntry 1 100) 1 200) [0, 1]).surface ≠
      some 100 :=
  (render_supersede_discard.2.2 10 1 100 200 [0, 1]
    (by decide) (by decide) (by decide) (by decide) (by decide)).2

/-- C7 (counterexample): on a 3-page document the scroll view mounts a page
container (with a `Page` surface) for every page immediately: the set of
pages eligible for rendering is `{1, 2, 3}`, not `{1, 2}`. -/
theorem scrollRenderedPages_not_first_spread :
    (scrollRenderedPages 3).toFinset ≠ ({1, 2} : Finset ℕ) := by decide

/-- C7 (amended): in scroll layout, every page from 1 to pageCount is in the
rendered set from the moment the document opens; the set is a pure function
of the page count, so it never changes during the session — in particular it
never shrinks — but it is the full set, not a lazily grown one. -/
theorem scrollRenderedPages_complete (numPages p : ℕ) :
    p ∈ scrollRenderedPages numPages ↔ 1 ≤ p ∧ p ≤ numPages := by
  constructor
  · intro h
    simp only [scrollRenderedPages, List.mem_map, List.mem_range] at h
    obtain ⟨i, hi, rfl⟩ := h
    omega
  · intro h
    simp only [scrollRenderedPages, List.mem_map, List.mem_range]
    exact ⟨p - 1, by omega, by omega⟩

/-- C8 (counterexample): the code's geometry disagrees with the claimed
formula.  At `innerWidth = 1000`, `innerHeight = 10000`, aspect 1.414, the
code computes `min(1000 × 0.95, …) = 950`, while the claimed formula yields
`min(1000 × 0.9, …) = 900` (shown here with zero padding and chrome; any
nonnegative padding/chrome only lowers its height arm, never raises the 900
width arm, so no choice of those parameters reproduces 950). -/
theorem updateSize_disagrees_with_spec :
    updateSize 1000 10000 1.414 true = 950 ∧
    specSpreadContainerWidth 1000 10000 1.414 0 0 = 900 ∧
    updateSize 1000 10000 1.414 true ≠ specSpreadContainerWidth 1000 10000 1.414 0 0 := by
  refine ⟨?_, ?_, ?_⟩ <;> norm_num [updateSize, specSpreadContainerWidth, min_def]

/-- C8 (amended): in landscape spread layout the container width is
`min(innerWidth × 0.95, innerHeight × 0.95 × 2 / pageAspect)` — a 5% margin
on each axis and no chrome-height subtraction.  With that formula the spread
still never overflows either axis: the width is at most 95% of the viewport
width, and the resulting page height (`width / 2 × pageAspect`) is at most
95% of the viewport height. -/
theorem updateSize_formula (w h r : ℚ) (hr : 0 < r) :
    updateSize w h r true = min (w * 0.95) (h * 0.95 * 2 / r) ∧
    updateSize w h r true ≤ w * 0.95 ∧
    updateSize w h r true / 2 * r ≤ h * 0.95 := by
  have heq : updateSize w h r true = min (w * 0.95) (h * 0.95 * 2 / r) := by
    simp [updateSize, mul_div_assoc]
  refine ⟨heq, ?_, ?_⟩
  · rw [heq]
    exact min_le_left _ _
  · have hm : updateSize w h r true ≤ h * 0.95 * 2 / r := by
      rw [heq]
      exact min_le_right _ _
    have hstep : updateSize w h r true / 2 * r ≤ (h * 0.95 * 2 / r) / 2 * r :=
      mul_le_mul_of_nonneg_right
        ((div_le_div_iff_of_pos_right (by norm_num : (0:ℚ) < 2)).mpr hm) hr.le
    have hfin : (h * 0.95 * 2 / r) / 2 * r = h * 0.95 := by
      field_simp
      ring
    exact hstep.trans (le_of_eq hfin)

/-- Witness for C8 (amended) at a 1000 × 1000 viewport with aspect 2. -/
theorem updateSize_formula_witness :
    updateSize 1000 1000 2 true = min ((1000:ℚ) * 0.95) (1000 * 0.95 * 2 / 2) ∧
    updateSize 1000 1000 2 true ≤ 1000 * 0.95 ∧
    updateSize 1000 1000 2 true / 2 * 2 ≤ 1000 * 0.95 :=
  updateSize_formula 1000 1000 2 (by decide)

theorem effectCleanup_spec (s : PageEntry) :
    (effectCleanup s).tracked = none ∧
    (effectCleanup s).tasks.length = s.tasks.length ∧
    (effectCleanup s).surface = s.surface ∧
    (effectCleanup s).errored = s.errored := by
  unfold effectCleanup
  rcases ht : s.tracked with _ | i <;> simp [ht, markCancelled_length]

/-- C9 (counterexample): a negative target width is not rejected.  The guard
is `pageNum <= 0 || pageNum > numPages || !width`, and in JavaScript
`!width` is false for a negative number, so requesting page 1 of a 10-page
document at width −100 issues a render task at width −100 instead of
clearing the slot. -/
theorem negative_width_renders :
    ((-100 : ℚ) ≤ 0) ∧
    (rerunEffect 10 initEntry 1 (-100)).tasks =
      [{ width := -100, cancelled := false, completed := false }] ∧
    (rerunEffect 10 initEntry 1 (-100)).tracked = some 0 := by
  refine ⟨by decide, ?_, ?_⟩ <;> decide

/-- C9 (amended): a request with `pageNum` outside `[1, pageCount]` or with
`targetWidth = 0` is a no-op that clears the slot: the surface goes blank,
the error state is not set, no render task is issued, and nothing is
tracked.  A strictly negative `targetWidth`, however, passes the guard and
issues a render. -/
theorem pageGuard_clears :
    (∀ (N pageNum : ℤ) (w : ℚ) (s : PageEntry), pageNum ≤ 0 ∨ pageNum > N ∨ w = 0 →
      (rerunEffect N s pageNum w).surface = none ∧
      (rerunEffect N s pageNum w).errored = false ∧
      (rerunEffect N s pageNum w).tasks.length = s.tasks.length ∧
      (rerunEffect N s pageNum w).tracked = none) ∧
    (∀ (N pageNum : ℤ) (w : ℚ) (s : PageEntry), 0 < pageNum → pageNum ≤ N → w ≠ 0 →
      (rerunEffect N s pageNum w).tasks.length = s.tasks.length + 1) := by
  constructor
  · intro N pageNum w s h
    have hc := effectCleanup_spec s
    unfold rerunEffect effectBody
    rw [if_pos h]
    exact ⟨rfl, rfl, hc.2.1, hc.1⟩
  · intro N pageNum w s hp0 hpN hw
    have hc := effectCleanup_spec s
    have hng : ¬(pageNum ≤ 0 ∨ pageNum > N ∨ w = 0) := by
      push_neg
      exact ⟨by omega, by omega, hw⟩
    unfold rerunEffect effectBody
    rw [if_neg hng]
    simp [hc.2.1]

/-- Witness for C9 (amended): page 0 at width 50 clears the slot of a fresh
entry; page 1 at width 50 issues one task. -/
theorem pageGuard_clears_witness :
    ((rerunEffect 10 initEntry 0 50).surface = none ∧
      (rerunEffect 10 initEntry 0 50).errored = false ∧
      (rerunEffect 10 initEntry 0 50).tasks.length = initEntry.tasks.length ∧
      (rerunEffect 10 initEntry 0 50).tracked = none) ∧
    (rerunEffect 10 initEntry 1 50).tasks.length = initEntry.tasks.length + 1 :=
  ⟨pageGuard_clears.1 10 0 50 initEntry (by decide),
   pageGuard_clears.2 10 1 50 initEntry (by decide) (by decide) (by decide)⟩

/-- C10: `addBookmark`.  (1) If the list already has a bookmark with the
given page, the list is returned completely unchanged.  (2) Otherwise the
new entry is inserted — the result is a permutation of the old list plus the
new entry — and the result is sorted in ascending order of page. -/
theorem addBookmark_spec :
    (∀ (l : List Bookmark) (page : ℤ) (name : String) (b : Bookmark),
      b ∈ l → b.page = page → addBookmark l page name = l) ∧
    (∀ (l : List Bookmark) (page : ℤ) (name : String), (∀ b ∈ l, b.page ≠ page) →
      (addBookmark l page name).Perm (l ++ [{ page := page, name := name }]) ∧
      List.Pairwise (fun a b : Bookmark => a.page ≤ b.page) (addBookmark l page name)) := by
  constructor
  · intro l page name b hb hbp
    have ha : l.any (fun b => b.page == page) = true :=
      List.any_eq_true.mpr ⟨b, hb, by simp [hbp]⟩
    simp [addBookmark, ha]
  · intro l page name h
    have ha : ¬(l.any (fun b => b.page == page) = true) := by
      simp only [List.any_eq_true, not_exists]
      intro b
      simp only [beq_iff_eq, not_and]
      exact h b
    rw [addBookmark, if_neg ha]
    constructor
    · exact List.mergeSort_perm _ _
    · have htrans : ∀ a b c : Bookmark,
          decide (a.page ≤ b.page) = true → decide (b.page ≤ c.page) = true →
          decide (a.page ≤ c.page) = true := by
        intro a b c hab hbc
        simp only [decide_eq_true_eq] at hab hbc ⊢
        omega
      have htotal : ∀ a b : Bookmark,
          (decide (a.page ≤ b.page) || decide (b.page ≤ a.page)) = true := by
        intro a b
        simp only [Bool.or_eq_true, decide_eq_true_eq]
        omega
      have hs := List.sorted_mergeSort htrans htotal
        (l ++ [({ page := page, name := name } : Bookmark)])
      simpa using hs

/-- Witness for C10: adding page 3 to a list already holding page 3 changes
nothing; adding page 2 inserts it and the result is sorted by page. -/
theorem addBookmark_spec_witness :
    addBookmark [{ page := 3, name := "X" }] 3 "Y" = [{ page := 3, name := "X" }] ∧
    (addBookmark [{ page := 3, name := "X" }] 2 "Y").Perm
      ([{ page := 3, name := "X" }] ++ [{ page := 2, name := "Y" }]) ∧
    List.Pairwise (fun a b : Bookmark => a.page ≤ b.page)
      (addBookmark [{ page := 3, name := "X" }] 2 "Y") :=
  ⟨addBookmark_spec.1 [{ page := 3, name := "X" }] 3 "Y" { page := 3, name := "X" }
      (by simp) rfl,
   (addBookmark_spec.2 [{ page := 3, name := "X" }] 2 "Y" (by decide)).1,
   (addBookmark_spec.2 [{ page := 3, name := "X" }] 2 "Y" (by decide)).2⟩

end Reader
